import Mathlib

/-
  Verification development for the RAG (retrieval-augmented generation) service
  of the str-foundry-local repository.  The definitions below are a shallow
  embedding of `src/services/ragService.ts`: TypeScript class fields become a
  `RAGState` record, SQLite tables become association lists, external
  collaborators (the MD5 hash, the embedding provider, the SQLite FTS engine)
  become explicit function parameters or oracle records, and thrown JavaScript
  exceptions become `Except` values that are pattern-matched exactly where the
  source has `try`/`catch`.
-/

namespace RAG

/-- Source tag of a search result: the union type `'vector' | 'text'` of
`RAGSearchResult.sourceType` in `ragService.ts`. -/
inductive SourceType where
  | vector
  | text
deriving DecidableEq, Repr

/-- Structured form of the JSON metadata string built in `RAGService.ingestCSV`
(line 292): `JSON.stringify({ source: fileName, row_index: i, columns: Object.keys(row) })`. -/
structure DocMeta where
  source : String
  row_index : Nat
  columns : List String
deriving DecidableEq, Repr

/-- One row of the SQLite `documents` table (`id TEXT PRIMARY KEY, content, metadata`). -/
structure DocRow where
  id : String
  content : String
  metadata : DocMeta
deriving DecidableEq, Repr

/-- A CSV row as produced by `csv-parser`: an ordered list of (column, value) pairs. -/
abbrev CSVRow := List (String × String)

/-- The running usage counters returned by `RAGService.getRAGStats`. -/
structure RAGStats where
  totalSearches : Nat
  totalMatches : Nat
  embeddingFailures : Nat
deriving DecidableEq, Repr

/-- The mutable instance state of the `RAGService` class.  `documents` and
`embeddings` model the two SQLite tables in rowid (insertion) order; the pair
list `ingestedFiles` models the `IngestedFileInfo[]` ledger with times as
natural-number milliseconds; `ingestCalls` is ghost instrumentation recording
each invocation of `ingestCSV` (the source logs every such call), used by the
refresh theorems to observe which files were (re-)ingested. -/
structure RAGState where
  dbOpen : Bool
  isInitialized : Bool
  hasContent : Bool
  useFullTextSearch : Bool
  searchCount : Nat
  matchCount : Nat
  embeddingFailureCount : Nat
  documents : List DocRow
  embeddings : List (String × List ℝ)
  ingestedFiles : List (String × Nat)
  lastIngestTime : Option Nat
  ingestCalls : List String

/-- `RAGService.formatRowContent` (line 322): join `key: value` lines with newlines. -/
def formatRowContent (row : CSVRow) : String :=
  String.intercalate "\n" (row.map (fun kv => kv.1 ++ ": " ++ kv.2))

/-- The exact string fed to the MD5 hash in `RAGService.createDocumentId`
(line 331): the template literal `fileName-rowIndex-content`.  No
normalization of any kind is applied to `content` before hashing. -/
def hashPreimage (fileName : String) (rowIndex : Nat) (content : String) : String :=
  fileName ++ "-" ++ toString rowIndex ++ "-" ++ content

/-- `RAGService.createDocumentId` (lines 330-333).  The MD5 digest is an external
crypto primitive, so it is a function parameter `md5`; the service applies it to
the raw `hashPreimage` string. -/
def createDocumentId (md5 : String → String) (fileName : String) (rowIndex : Nat)
    (content : String) : String :=
  md5 (hashPreimage fileName rowIndex content)

/-- The string passed to `getEmbedding` by `RAGService.storeDocument` (line 351):
`document.content`, verbatim, with no normalization step in between. -/
def embeddingInput (content : String) : String :=
  content

/-- `INSERT OR REPLACE` into a table whose primary key is `key`: SQLite deletes
any conflicting row and appends the new row with a fresh rowid. -/
def upsertBy {α κ : Type} [DecidableEq κ] (key : α → κ) (x : α) (l : List α) : List α :=
  l.filter (fun y => decide (key y ≠ key x)) ++ [x]

/-- Apply a sequence of `INSERT OR REPLACE` statements in order. -/
def applyUpserts {α κ : Type} [DecidableEq κ] (key : α → κ) (us : List α) (l : List α) :
    List α :=
  us.foldl (fun acc x => upsertBy key x acc) l

/-- Boolean predicate: the key of `y` does not occur among the keys of `us`. -/
def keyNotIn {α κ : Type} [DecidableEq κ] (key : α → κ) (us : List α) (y : α) : Bool :=
  us.all (fun x => decide (key y ≠ key x))

/-- The outcome of one call to the external embedding provider
(`openai.embeddings.create`); `.error` models a thrown exception. -/
abbrev EmbedOutcome := Except Unit (List ℝ)

/-- `RAGService.storeDocument` (lines 338-366).  After the guard `if (!this.db)
return`, the document row is upserted; then, unless the service is in full-text
mode, an embedding is requested.  A provider failure is counted twice: once in
`getEmbedding`'s own catch (line 381) and once in `storeDocument`'s catch
(line 359), both of which increment `embeddingFailureCount`. -/
def storeDocument (provider : String → EmbedOutcome) (st : RAGState) (d : DocRow) :
    RAGState :=
  if !st.dbOpen then st
  else if st.useFullTextSearch then
    { st with documents := upsertBy DocRow.id d st.documents }
  else
    match provider (embeddingInput d.content) with
    | .ok e =>
        { st with
          documents := upsertBy DocRow.id d st.documents,
          embeddings := upsertBy Prod.fst (d.id, e) st.embeddings }
    | .error _ =>
        { st with
          documents := upsertBy DocRow.id d st.documents,
          embeddingFailureCount := st.embeddingFailureCount + 2 }

/-- The document built for row `i` of file `fileName` by `RAGService.ingestCSV`
(lines 289-306). -/
def rowDocument (md5 : String → String) (fileName : String) (i : Nat) (row : CSVRow) :
    DocRow :=
  let content := formatRowContent row
  { id := createDocumentId md5 fileName i content
    content := content
    metadata := { source := fileName, row_index := i, columns := row.map Prod.fst } }

/-- The list of documents produced from a whole CSV file, in row order. -/
def fileDocuments (md5 : String → String) (fileName : String) (rows : List CSVRow) :
    List DocRow :=
  rows.enum.map (fun p => rowDocument md5 fileName p.1 p.2)

/-- `RAGService.ingestCSV` (lines 274-317): parse all rows, then store one
document per row in order.  `ingestCalls` records the invocation (ghost
instrumentation mirroring the `Ingesting CSV file: ...` log line). -/
def ingestCSV (md5 : String → String) (provider : String → EmbedOutcome)
    (st : RAGState) (fileName : String) (rows : List CSVRow) : RAGState :=
  if !st.dbOpen then { st with ingestCalls := st.ingestCalls ++ [fileName] }
  else
    rows.enum.foldl
      (fun s p => storeDocument provider s (rowDocument md5 fileName p.1 p.2))
      { st with ingestCalls := st.ingestCalls ++ [fileName] }

/-- Dot product of two embedding vectors, truncating to the shorter length,
as the `compute-cosine-similarity` package iterates over paired coordinates. -/
def dotList (a b : List ℝ) : ℝ :=
  (List.zipWith (fun x y => x * y) a b).sum

/-- Sum of squared coordinates of a vector. -/
def sumSq (a : List ℝ) : ℝ :=
  (a.map (fun x => x * x)).sum

/-- Cosine similarity as computed by the `compute-cosine-similarity` package
used at line 529 of `ragService.ts`: dot product divided by the product of the
Euclidean norms. -/
noncomputable def cosineSim (a b : List ℝ) : ℝ :=
  dotList a b / (Real.sqrt (sumSq a) * Real.sqrt (sumSq b))

/-- Guard condition shared by `search` and `textSearch` (lines 390 and 501):
`!this.db || !this.isInitialized || !this.hasContent` negated. -/
def storeAvailable (st : RAGState) : Bool :=
  st.dbOpen && st.isInitialized && st.hasContent

/-- A search result as returned to callers: `RAGSearchResult` in `ragService.ts`. -/
structure RAGSearchResult where
  content : String
  similarity : ℝ
  sourceType : SourceType

/-- An error thrown by a SQLite query; `msg` is the result of `String(error)`
tested by the corruption-signature check at lines 410-413. -/
structure FtsErr where
  msg : String
deriving DecidableEq, Repr

/-- Substring containment test, modelling the JavaScript
`errorMessage.includes(...)` calls at lines 411-413. -/
def strIncludes (hay needle : String) : Bool :=
  hay.data.tails.any (fun t => needle.data.isPrefixOf t)

/-- Whitespace tokenizer modelling the JavaScript `query.split(/\s+/)`:
maximal whitespace runs separate tokens.  (A leading empty token that the
JavaScript split can produce is dropped here; every use site filters tokens by
length afterwards, which discards empty tokens anyway.) -/
def splitWsAux : List Char → List Char → List String
  | [], acc => if acc.isEmpty then [] else [String.mk acc.reverse]
  | c :: cs, acc =>
      if c.isWhitespace then
        if acc.isEmpty then splitWsAux cs []
        else String.mk acc.reverse :: splitWsAux cs []
      else splitWsAux cs (c :: acc)

def splitWs (s : String) : List String :=
  splitWsAux s.data []

/-- ASCII-style lowercasing, character by character, modelling JavaScript
`toLowerCase` and SQLite's case-insensitive `LIKE` on the ASCII range. -/
def toLowerStr (s : String) : String :=
  String.mk (s.data.map Char.toLower)

/-- The corruption-signature test of `textSearch` (lines 411-413). -/
def isCorruptionError (msg : String) : Bool :=
  strIncludes msg "SQLITE_CORRUPT_VTAB" || strIncludes msg "missing row" ||
    strIncludes msg "fts5"

/-- `RAGService.prepareSearchTerms` (lines 486-495): lowercase, split on
whitespace, keep tokens longer than 3 characters, quote with a trailing
wildcard star, join with OR. -/
def prepareSearchTerms (query : String) : String :=
  let terms := ((splitWs (toLowerStr query)).filter
      (fun t => t.length > 3)).map (fun t => "\"" ++ t ++ "\"*")
  String.intercalate " OR " terms

/-- Case-insensitive substring test modelling a SQLite `content LIKE '%t%'`
pattern, which is case-insensitive for ASCII by default. -/
def likeContains (content term : String) : Bool :=
  strIncludes (toLowerStr content) (toLowerStr term)

/-- The raw-substring fallback of `textSearch` (lines 445-468): split the query
on whitespace, keep tokens longer than 3 characters; with no surviving token
match the whole query as one substring, otherwise OR-match each token; apply
the SQL `LIMIT`. -/
def likeFallback (docs : List DocRow) (query : String) (limit : Nat) :
    List (String × String) :=
  let terms := (splitWs query).filter (fun t => t.length > 3)
  if terms.isEmpty then
    ((docs.filter (fun d => likeContains d.content query)).map
      (fun d => (d.id, d.content))).take limit
  else
    ((docs.filter (fun d => terms.any (fun t => likeContains d.content t))).map
      (fun d => (d.id, d.content))).take limit

/-- Outcomes of the two possible queries against the `documents_fts` virtual
table during one `textSearch` call: the initial `MATCH` query (line 400) and
the retry after `rebuildFtsTable` (line 422).  The FTS engine is external, so
both outcomes are oracle inputs; each row is an `(id, content)` pair. -/
structure FtsOracle where
  first : Except FtsErr (List (String × String))
  retry : Except FtsErr (List (String × String))

/-- The body of `RAGService.textSearch` inside its outer `try` (lines 395-476),
with JavaScript `throw` modelled by `Except.error`.  The inner `try`/`catch`
around the first FTS query either produces rows, retries once after a rebuild
when the error message carries a corruption signature, or rethrows; a rethrown
error escapes this body (landing in the outer catch) rather than reaching the
`if (!results)` LIKE fallback, which is therefore only reachable if the
`results` variable could remain unset without a throw. -/
def textSearchBody (st : RAGState) (o : FtsOracle) (query : String) (limit : Nat) :
    Except FtsErr (List (String × String)) :=
  let attempt : Except FtsErr (Option (List (String × String))) :=
    match o.first with
    | .ok rows => .ok (some (rows.take limit))
    | .error e =>
        if isCorruptionError e.msg then
          match o.retry with
          | .ok rows => .ok (some (rows.take limit))
          | .error e2 => .error e2
        else .error e
  match attempt with
  | .error e => .error e
  | .ok (some rows) => .ok rows
  | .ok none => .ok (likeFallback st.documents query limit)

/-- `RAGService.textSearch` (lines 389-481): guard on store availability, run
the body, map surviving rows to results with synthetic similarity
`1 - 0.1 * index` and provenance `text`; the outer catch turns any escaped
error into an empty list. -/
noncomputable def textSearch (st : RAGState) (o : FtsOracle) (query : String)
    (limit : Nat) : List RAGSearchResult :=
  if !storeAvailable st then []
  else
    match textSearchBody st o query limit with
    | .ok rows =>
        rows.enum.map (fun p =>
          { content := p.2.2, similarity := 1 - (p.1 : ℝ) * (1 / 10)
            sourceType := SourceType.text })
    | .error _ => []

/-- The ordering used by the sort at line 540 (`(a, b) => b.similarity -
a.similarity`): descending similarity.  JavaScript `Array.prototype.sort` is
stable, which insertion sort realises. -/
def simGE (a b : DocRow × ℝ) : Prop :=
  b.2 ≤ a.2

noncomputable instance : DecidableRel simGE := fun a b => Real.decidableLE b.2 a.2

instance : IsTotal (DocRow × ℝ) simGE := ⟨fun a b => le_total b.2 a.2⟩

instance : IsTrans (DocRow × ℝ) simGE := ⟨fun _ _ _ h1 h2 => le_trans h2 h1⟩

/-- The candidate set of vector search: the SQL join at lines 520-524
(`documents JOIN embeddings ON d.id = e.document_id`), scanned in `documents`
(rowid) order. -/
def vectorCandidates (st : RAGState) : List (DocRow × List ℝ) :=
  st.documents.filterMap (fun d =>
    (st.embeddings.lookup d.id).map (fun e => (d, e)))

/-- The scored candidate list built at lines 527-536: each joined document
paired with its cosine similarity against the query embedding.  No boosting of
any kind is applied to any document's score. -/
noncomputable def scoredDocuments (st : RAGState) (qe : List ℝ) : List (DocRow × ℝ) :=
  (vectorCandidates st).map (fun de => (de.1, cosineSim qe de.2))

/-- The result list of the vector path (lines 538-546): sort the scored
documents by descending similarity with a stable sort, take the top `limit`,
and tag every result with provenance `vector`. -/
noncomputable def vectorResults (st : RAGState) (qe : List ℝ) (limit : Nat) :
    List RAGSearchResult :=
  ((List.insertionSort simGE (scoredDocuments st qe)).take limit).map (fun p =>
    { content := p.1.content, similarity := p.2, sourceType := SourceType.vector })

/-- `RAGService.search` (lines 500-564).  `embedOut` is the outcome of the
query-embedding call; `o` supplies the FTS outcomes for any lexical fallback.
Returns the result list and the updated service state.  A provider failure on
the vector path is counted twice (`getEmbedding` catch plus `search` catch) and
trips the sticky `useFullTextSearch` flag; the match counter is incremented
(by the result count) only on a successful vector path. -/
noncomputable def search (st : RAGState) (embedOut : EmbedOutcome) (o : FtsOracle)
    (query : String) (limit : Nat) : List RAGSearchResult × RAGState :=
  if !storeAvailable st then ([], st)
  else if st.useFullTextSearch then
    (textSearch { st with searchCount := st.searchCount + 1 } o query limit,
      { st with searchCount := st.searchCount + 1 })
  else
    match embedOut with
    | .error _ =>
        (textSearch { st with
            searchCount := st.searchCount + 1,
            embeddingFailureCount := st.embeddingFailureCount + 2,
            useFullTextSearch := true } o query limit,
          { st with
            searchCount := st.searchCount + 1,
            embeddingFailureCount := st.embeddingFailureCount + 2,
            useFullTextSearch := true })
    | .ok qe =>
        (vectorResults st qe limit,
          if (vectorResults st qe limit).length > 0 then
            { st with
              searchCount := st.searchCount + 1,
              matchCount := st.matchCount + (vectorResults st qe limit).length }
          else { st with searchCount := st.searchCount + 1 })

/-- `RAGService.getRAGStats` (lines 569-575). -/
def getRAGStats (st : RAGState) : RAGStats :=
  { totalSearches := st.searchCount
    totalMatches := st.matchCount
    embeddingFailures := st.embeddingFailureCount }

/-- Arguments of one `search` call, for reasoning about call sequences. -/
structure SearchCall where
  embedOut : EmbedOutcome
  fts : FtsOracle
  query : String
  limit : Nat

/-- Run a sequence of `search` calls, threading the state and collecting each
call's result list. -/
noncomputable def runSearches (st : RAGState) :
    List SearchCall → List (List RAGSearchResult) × RAGState
  | [] => ([], st)
  | c :: cs =>
      let r := search st c.embedOut c.fts c.query c.limit
      let rest := runSearches r.2 cs
      (r.1 :: rest.1, rest.2)

/-- A file in the data directory as seen by one refresh scan: its name, its
modification time, and its parsed CSV rows. -/
structure DirFile where
  name : String
  mtime : Nat
  rows : List CSVRow

/-- The `.csv` filter applied to the directory listing (line 611). -/
def csvFiles (dir : List DirFile) : List DirFile :=
  dir.filter (fun f => ".csv".data.isSuffixOf f.name.data)

/-- The conditional update of `lastIngestTime` in the non-initialized branches
of `refreshIngestedFiles` (lines 649-651 and 677-679). -/
def bumpTime (cur : Option Nat) (t : Nat) : Option Nat :=
  match cur with
  | none => some t
  | some u => if t > u then some t else some u

/-- `Math.max` over the ledger ingest times (lines 693-695). -/
def maxTimes (ts : List Nat) : Nat :=
  ts.foldl max 0

/-- The new-files loop of `refreshIngestedFiles` (lines 620-654), as a fold
carrying the state and the `hasChanges` flag.  `currentFiles` is the name set
captured before the loop (line 616). -/
def refreshNewFiles (md5 : String → String) (provider : String → EmbedOutcome)
    (currentFiles : List String) (now : Nat) (acc : RAGState × Bool) (f : DirFile) :
    RAGState × Bool :=
  if currentFiles.contains f.name then acc
  else
    let s := acc.1
    if s.isInitialized && s.dbOpen then
      let s1 := ingestCSV md5 provider s f.name f.rows
      ({ s1 with
          ingestedFiles := s1.ingestedFiles ++ [(f.name, now)],
          lastIngestTime := some now }, true)
    else
      ({ s with
          ingestedFiles := s.ingestedFiles ++ [(f.name, f.mtime)],
          lastIngestTime := bumpTime s.lastIngestTime f.mtime }, true)

/-- One step of the updated-timestamps loop of `refreshIngestedFiles`
(lines 657-684): the accumulator carries the state, the rebuilt ledger entries
and the `hasChanges` flag; `dir` supplies `fs.existsSync`/`fs.statSync`. -/
def refreshUpdatedStep (md5 : String → String) (provider : String → EmbedOutcome)
    (dir : List DirFile) (now : Nat) (acc : RAGState × List (String × Nat) × Bool)
    (entry : String × Nat) : RAGState × List (String × Nat) × Bool :=
  match dir.find? (fun f => f.name == entry.1) with
  | none => (acc.1, acc.2.1 ++ [entry], acc.2.2)
  | some f =>
      if f.mtime > entry.2 then
        if acc.1.isInitialized && acc.1.dbOpen then
          ({ ingestCSV md5 provider acc.1 entry.1 f.rows with
              lastIngestTime := some now },
            acc.2.1 ++ [(entry.1, now)], true)
        else
          ({ acc.1 with lastIngestTime := bumpTime acc.1.lastIngestTime f.mtime },
            acc.2.1 ++ [(entry.1, f.mtime)], true)
      else (acc.1, acc.2.1 ++ [entry], acc.2.2)

/-- The new-files loop of `refreshIngestedFiles` over the whole scan, with the
`currentFiles` name set captured from the pre-refresh ledger (line 616). -/
def refreshPhase1 (md5 : String → String) (provider : String → EmbedOutcome)
    (st : RAGState) (dir : List DirFile) (now : Nat) : RAGState × Bool :=
  (csvFiles dir).foldl
    (refreshNewFiles md5 provider (st.ingestedFiles.map Prod.fst) now) (st, false)

/-- The updated-timestamps loop (lines 656-684): it runs only when the
new-files loop reported no change (`if (!hasChanges)`), and rebuilds the
ledger entry list while possibly re-ingesting stale files. -/
def refreshPhase2 (md5 : String → String) (provider : String → EmbedOutcome)
    (dir : List DirFile) (now : Nat) (r1 : RAGState × Bool) : RAGState × Bool :=
  if r1.2 then r1
  else
    let u := r1.1.ingestedFiles.foldl
      (refreshUpdatedStep md5 provider dir now) (r1.1, [], false)
    ({ u.1 with ingestedFiles := u.2.1 }, u.2.2)

/-- The closing phase of `refreshIngestedFiles` (lines 686-701): drop ledger
entries whose file disappeared, then, if anything changed and the ledger is
non-empty, recompute `lastIngestTime` and `hasContent`. -/
def refreshFinish (files : List DirFile) (r2 : RAGState × Bool) : RAGState :=
  if r2.2 && !(r2.1.ingestedFiles.filter
      (fun e => files.any (fun f => f.name == e.1))).isEmpty then
    { r2.1 with
      ingestedFiles :=
        r2.1.ingestedFiles.filter (fun e => files.any (fun f => f.name == e.1)),
      lastIngestTime := some (maxTimes ((r2.1.ingestedFiles.filter
        (fun e => files.any (fun f => f.name == e.1))).map Prod.snd)),
      hasContent := decide (r2.1.documents.length > 0) }
  else
    { r2.1 with
      ingestedFiles :=
        r2.1.ingestedFiles.filter (fun e => files.any (fun f => f.name == e.1)) }

/-- `RAGService.refreshIngestedFiles` run to completion (lines 605-705): ingest
newly discovered files; only when no new file was found, re-ingest files whose
modification time exceeds their ledger timestamp; drop ledger entries whose
file disappeared; finally, if anything changed and the ledger is non-empty,
recompute `lastIngestTime` and `hasContent`. -/
def refresh (md5 : String → String) (provider : String → EmbedOutcome)
    (st : RAGState) (dir : List DirFile) (now : Nat) : RAGState :=
  if (csvFiles dir).isEmpty then st
  else
    refreshFinish (csvFiles dir)
      (refreshPhase2 md5 provider dir now (refreshPhase1 md5 provider st dir now))

/-- The synchronous part of the new-files loop, executed before control returns
to the caller of the un-awaited `refreshIngestedFiles()`: iterations for known
files are pure reads; the first new file either suspends at
`await this.ingestCSV` (leaving the state untouched, since the ledger push at
lines 633-637 follows the await) when the service is initialized with an open
database, or is handled fully synchronously otherwise.  Returns the state and
`none` if the loop finished without suspending (carrying `hasChanges`), or
`some` state at the suspension point. -/
def syncNewFiles (currentFiles : List String) (st : RAGState) (hc : Bool) :
    List DirFile → (RAGState × Bool) ⊕ RAGState
  | [] => Sum.inl (st, hc)
  | f :: rest =>
      if currentFiles.contains f.name then syncNewFiles currentFiles st hc rest
      else if st.isInitialized && st.dbOpen then Sum.inr st
      else
        syncNewFiles currentFiles
          { st with
            ingestedFiles := st.ingestedFiles ++ [(f.name, f.mtime)],
            lastIngestTime := bumpTime st.lastIngestTime f.mtime } true rest

/-- The synchronous part of the updated-timestamps loop: in the initialized
case the first stale file suspends at `await this.ingestCSV` (line 669) before
any state change; otherwise the timestamp bookkeeping is synchronous. -/
def syncUpdated (dir : List DirFile) (st : RAGState) (done : List (String × Nat))
    (hc : Bool) : List (String × Nat) → (RAGState × List (String × Nat) × Bool) ⊕ RAGState
  | [] => Sum.inl (st, done, hc)
  | entry :: rest =>
      match dir.find? (fun f => f.name == entry.1) with
      | none => syncUpdated dir st (done ++ [entry]) hc rest
      | some f =>
          if f.mtime > entry.2 then
            if st.isInitialized && st.dbOpen then Sum.inr st
            else
              syncUpdated dir
                { st with lastIngestTime := bumpTime st.lastIngestTime f.mtime }
                (done ++ [(entry.1, f.mtime)]) true rest
          else syncUpdated dir st (done ++ [entry]) hc rest

/-- The state observed by the caller of the un-awaited
`this.refreshIngestedFiles()` at line 593: `refreshIngestedFiles` runs
synchronously until its first `await this.ingestCSV(...)` (or to completion if
no ingestion is triggered), and only then does control return to
`getIngestedFilesInfo`. -/
def refreshSyncPart (st : RAGState) (dir : List DirFile) : RAGState :=
  let files := csvFiles dir
  if files.isEmpty then st
  else
    let currentFiles := st.ingestedFiles.map Prod.fst
    match syncNewFiles currentFiles st false files with
    | Sum.inr s => s
    | Sum.inl (s1, hc1) =>
        let r2 :=
          if hc1 then Sum.inl (s1, hc1)
          else
            match syncUpdated dir s1 [] false s1.ingestedFiles with
            | Sum.inr s => Sum.inr s
            | Sum.inl (s2, done, hc2) =>
                Sum.inl ({ s2 with ingestedFiles := done }, hc2)
        match r2 with
        | Sum.inr s => s
        | Sum.inl (s3, hc) =>
            let s4 := { s3 with ingestedFiles :=
              s3.ingestedFiles.filter (fun e => files.any (fun f => f.name == e.1)) }
            if hc && !s4.ingestedFiles.isEmpty then
              { s4 with
                lastIngestTime := some (maxTimes (s4.ingestedFiles.map Prod.snd)),
                hasContent := decide (s4.documents.length > 0) }
            else s4

/-- The snapshot returned by `RAGService.getIngestedFilesInfo` (lines 587-600). -/
structure FilesInfo where
  files : List (String × Nat)
  lastIngestTime : Option Nat
  stats : RAGStats
deriving DecidableEq, Repr

/-- `RAGService.getIngestedFilesInfo` (lines 587-600): it calls
`this.refreshIngestedFiles()` WITHOUT awaiting it, then snapshots
`[...this.ingestedFiles]`, `lastIngestTime` and the counters.  The snapshot
therefore reflects the state after only the synchronous part of the refresh;
the first component is that snapshot, the second is the service state once the
launched refresh has run to completion. -/
def getIngestedFilesInfo (md5 : String → String) (provider : String → EmbedOutcome)
    (st : RAGState) (dir : List DirFile) (now : Nat) : FilesInfo × RAGState :=
  let stSync := refreshSyncPart st dir
  (⟨stSync.ingestedFiles, stSync.lastIngestTime, getRAGStats stSync⟩,
    refresh md5 provider st dir now)

/-- Modelled from the spec: the boosting rule of §4.3 ("multiply its similarity
by a fixed boost factor (1.2), capped at 1.0") for documents whose metadata
source equals the designated authoritative file.  No such rule exists anywhere
in `ragService.ts`; this definition exists only to compare the claimed
behaviour with the code's. -/
noncomputable def specBoostedSimilarity (authoritative : String) (meta : DocMeta)
    (s : ℝ) : ℝ :=
  if meta.source = authoritative then min 1 (s * (12 / 10)) else s

/-- The combining acute accent U+0301. -/
def combiningAcute : Char := Char.ofNat 0x301

/-- The precomposed letter U+00E9 (Latin small letter e with acute). -/
def eAcute : Char := Char.ofNat 0xE9

/-- Modelled from the spec: the Unicode NFC canonical composition step of the
§4.2 Normalizer contract, restricted to the code points exercised by the
theorems below (the pair e + U+0301 composing to U+00E9).  No normalizer
exists anywhere in `ragService.ts`; this definition exists only to express
"canonically-equal" for concrete inputs. -/
def nfcCompose : List Char → List Char
  | [] => []
  | [c] => [c]
  | c :: c2 :: rest =>
      if c == 'e' && c2 == combiningAcute then eAcute :: nfcCompose rest
      else c :: nfcCompose (c2 :: rest)

/-- Modelled from the spec: the control/format code-point stripping of the
§4.2 Normalizer contract (C0 controls, DEL and C1 controls). -/
def isStrippedControl (c : Char) : Bool :=
  c.val < 32 || (127 ≤ c.val && c.val ≤ 159)

/-- Modelled from the spec: `normalize(text) -> text` of §4.2 — NFC composition
followed by control/format stripping. -/
def specNormalize (s : String) : String :=
  String.mk ((nfcCompose s.data).filter (fun c => !isStrippedControl c))

/-! ### Concrete fixtures

Small concrete states, documents and oracles used by the closed evaluation
theorems below. -/

/-- Metadata of a document originating from the glossary file of the spec's
end-to-end scenarios. -/
def sampleMeta : DocMeta :=
  { source := "definitions.csv", row_index := 0, columns := ["term"] }

/-- A sample stored document. -/
def sampleDoc : DocRow :=
  { id := "doc1", content := "term: caching", metadata := sampleMeta }

/-- A ready service state in vector mode holding the sample document with a
given stored embedding. -/
def stVec (emb : List ℝ) : RAGState :=
  { dbOpen := true, isInitialized := true, hasContent := true
    useFullTextSearch := false, searchCount := 0, matchCount := 0
    embeddingFailureCount := 0, documents := [sampleDoc]
    embeddings := [("doc1", emb)], ingestedFiles := [("definitions.csv", 5)]
    lastIngestTime := some 5, ingestCalls := [] }

/-- A ready service state already in full-text mode holding the sample
document. -/
def stText : RAGState :=
  { dbOpen := true, isInitialized := true, hasContent := true
    useFullTextSearch := true, searchCount := 0, matchCount := 0
    embeddingFailureCount := 0, documents := [sampleDoc], embeddings := []
    ingestedFiles := [("definitions.csv", 5)], lastIngestTime := some 5
    ingestCalls := [] }

/-- A completely uninitialized, empty service state. -/
def stEmpty : RAGState :=
  { dbOpen := false, isInitialized := false, hasContent := false
    useFullTextSearch := false, searchCount := 0, matchCount := 0
    embeddingFailureCount := 0, documents := [], embeddings := []
    ingestedFiles := [], lastIngestTime := none, ingestCalls := [] }

/-- An FTS oracle whose every query fails with a corruption-signature error. -/
def corruptOracle : FtsOracle :=
  { first := .error { msg := "SQLITE_CORRUPT_VTAB: database disk image is malformed" }
    retry := .error { msg := "SQLITE_CORRUPT_VTAB: database disk image is malformed" } }

/-- An FTS oracle whose first query returns the sample document. -/
def okOracle : FtsOracle :=
  { first := .ok [("doc1", "term: caching")], retry := .ok [] }

/-- An FTS oracle whose first query reports corruption but whose post-rebuild
retry succeeds. -/
def retryOracle : FtsOracle :=
  { first := .error { msg := "SQLITE_CORRUPT_VTAB: database disk image is malformed" }
    retry := .ok [("doc1", "term: caching")] }

/-- An initialized full-text-mode state whose ledger knows one file `a.csv`
ingested at time 5 and whose document store is still empty. -/
def stRefresh : RAGState :=
  { dbOpen := true, isInitialized := true, hasContent := true
    useFullTextSearch := true, searchCount := 0, matchCount := 0
    embeddingFailureCount := 0, documents := [], embeddings := []
    ingestedFiles := [("a.csv", 5)], lastIngestTime := some 5, ingestCalls := [] }

/-- A directory scan that discovers one new file `b.csv` and also finds the
known file `a.csv` updated (modification time 9 exceeds the ledger's 5). -/
def dirNewAndUpdated : List DirFile :=
  [{ name := "b.csv", mtime := 10, rows := [[("term", "x")]] },
    { name := "a.csv", mtime := 9, rows := [[("term", "y")]] }]

/-- A directory scan in which the only file is the known `a.csv`, updated. -/
def dirUpdatedOnly : List DirFile :=
  [{ name := "a.csv", mtime := 9, rows := [[("term", "y")]] }]

/-! ### Upsert algebra

`INSERT OR REPLACE` sequences normalise: applying the same sequence of upserts
twice leaves the table exactly as applying it once.  This drives the
idempotent-re-ingestion theorem. -/

theorem upsertBy_append {α κ : Type} [DecidableEq κ] (key : α → κ) (x : α)
    (l₁ l₂ : List α) :
    upsertBy key x (l₁ ++ l₂)
      = l₁.filter (fun y => decide (key y ≠ key x)) ++ upsertBy key x l₂ := by
  simp [upsertBy, List.filter_append]

theorem applyUpserts_cons {α κ : Type} [DecidableEq κ] (key : α → κ) (u : α)
    (us : List α) (l : List α) :
    applyUpserts key (u :: us) l = applyUpserts key us (upsertBy key u l) := rfl

theorem keyNotIn_cons {α κ : Type} [DecidableEq κ] (key : α → κ) (u : α)
    (us : List α) (y : α) :
    keyNotIn key (u :: us) y = (decide (key y ≠ key u) && keyNotIn key us y) := by
  simp [keyNotIn]

theorem applyUpserts_append {α κ : Type} [DecidableEq κ] (key : α → κ) :
    ∀ (us : List α) (l₁ l₂ : List α),
      applyUpserts key us (l₁ ++ l₂)
        = l₁.filter (keyNotIn key us) ++ applyUpserts key us l₂
  | [], l₁, l₂ => by
      have hfilt : l₁.filter (keyNotIn key []) = l₁ :=
        List.filter_eq_self.2 (fun y _ => rfl)
      simp [applyUpserts, hfilt]
  | u :: us, l₁, l₂ => by
      rw [applyUpserts_cons, upsertBy_append, applyUpserts_append key us,
        applyUpserts_cons, List.filter_filter]
      congr 1
      refine List.filter_congr (fun y _ => ?_)
      rw [keyNotIn_cons, Bool.and_comm]

theorem applyUpserts_mem_key {α κ : Type} [DecidableEq κ] (key : α → κ) :
    ∀ (us : List α) (l : List α) (y : α), y ∈ applyUpserts key us l →
      y ∈ l ∨ key y ∈ us.map key
  | [], l, y, h => Or.inl h
  | u :: us, l, y, h => by
      rcases applyUpserts_mem_key key us (upsertBy key u l) y h with h1 | h1
      · rcases List.mem_append.1 h1 with h2 | h2
        · exact Or.inl (List.mem_of_mem_filter h2)
        · rcases List.mem_singleton.1 h2 with rfl
          exact Or.inr (by simp)
      · exact Or.inr (by simp [h1])

theorem keyNotIn_eq_false {α κ : Type} [DecidableEq κ] (key : α → κ) (us : List α)
    (y : α) (h : key y ∈ us.map key) : keyNotIn key us y = false := by
  rcases List.mem_map.1 h with ⟨x, hx, hk⟩
  simp only [keyNotIn, List.all_eq_false]
  exact ⟨x, hx, by simp [hk]⟩

theorem applyUpserts_idem {α κ : Type} [DecidableEq κ] (key : α → κ) (us : List α)
    (l : List α) :
    applyUpserts key us (applyUpserts key us l) = applyUpserts key us l := by
  have hA : ∀ l' : List α,
      applyUpserts key us l'
        = l'.filter (keyNotIn key us) ++ applyUpserts key us [] := by
    intro l'
    simpa using applyUpserts_append key us l' []
  have hT : (applyUpserts key us ([] : List α)).filter (keyNotIn key us) = [] := by
    refine List.filter_eq_nil_iff.2 (fun y hy => ?_)
    rcases applyUpserts_mem_key key us [] y hy with h | h
    · exact absurd h (List.not_mem_nil y)
    · simp [keyNotIn_eq_false key us y h]
  have hF : (l.filter (keyNotIn key us)).filter (keyNotIn key us)
      = l.filter (keyNotIn key us) := by
    rw [List.filter_filter]
    exact List.filter_congr (fun y _ => by cases h : keyNotIn key us y <;> simp [h])
  rw [hA l, hA (List.filter (keyNotIn key us) l ++ applyUpserts key us []),
    List.filter_append, hF, hT, List.append_nil]

/-! ### Projection of ingestion onto the documents table -/

theorem storeDocument_dbOpen (provider : String → EmbedOutcome) (st : RAGState)
    (d : DocRow) : (storeDocument provider st d).dbOpen = st.dbOpen := by
  unfold storeDocument
  split
  · rfl
  · split
    · rfl
    · split <;> rfl

theorem storeDocument_documents (provider : String → EmbedOutcome) (st : RAGState)
    (d : DocRow) (h : st.dbOpen = true) :
    (storeDocument provider st d).documents = upsertBy DocRow.id d st.documents := by
  unfold storeDocument
  rw [h]
  simp only [Bool.not_true]
  rw [if_neg (by simp)]
  split
  · rfl
  · split <;> rfl

theorem foldStore_documents (md5 : String → String)
    (provider : String → EmbedOutcome) (fileName : String) :
    ∀ (l : List (Nat × CSVRow)) (st : RAGState), st.dbOpen = true →
      ((l.foldl (fun s p => storeDocument provider s (rowDocument md5 fileName p.1 p.2))
          st).documents
        = applyUpserts DocRow.id (l.map (fun p => rowDocument md5 fileName p.1 p.2))
            st.documents)
  | [], st, _ => rfl
  | p :: l, st, h => by
      rw [List.foldl_cons, List.map_cons, applyUpserts_cons,
        foldStore_documents md5 provider fileName l _ (by
          rw [storeDocument_dbOpen]; exact h),
        storeDocument_documents provider st _ h]

theorem foldStore_dbOpen (md5 : String → String)
    (provider : String → EmbedOutcome) (fileName : String) :
    ∀ (l : List (Nat × CSVRow)) (st : RAGState),
      ((l.foldl (fun s p => storeDocument provider s (rowDocument md5 fileName p.1 p.2))
          st).dbOpen = st.dbOpen)
  | [], _ => rfl
  | p :: l, st => by
      rw [List.foldl_cons, foldStore_dbOpen md5 provider fileName l, storeDocument_dbOpen]

theorem ingestCSV_documents (md5 : String → String)
    (provider : String → EmbedOutcome) (st : RAGState) (fileName : String)
    (rows : List CSVRow) (h : st.dbOpen = true) :
    (ingestCSV md5 provider st fileName rows).documents
      = applyUpserts DocRow.id (fileDocuments md5 fileName rows) st.documents := by
  unfold ingestCSV
  rw [h]
  simp only [Bool.not_true]
  rw [if_neg (by simp)]
  exact foldStore_documents md5 provider fileName rows.enum _ rfl

theorem ingestCSV_documents_closed (md5 : String → String)
    (provider : String → EmbedOutcome) (st : RAGState) (fileName : String)
    (rows : List CSVRow) (h : st.dbOpen = false) :
    (ingestCSV md5 provider st fileName rows).documents = st.documents := by
  unfold ingestCSV
  rw [h]
  simp only [Bool.not_false, if_true]

theorem ingestCSV_dbOpen (md5 : String → String)
    (provider : String → EmbedOutcome) (st : RAGState) (fileName : String)
    (rows : List CSVRow) :
    (ingestCSV md5 provider st fileName rows).dbOpen = st.dbOpen := by
  unfold ingestCSV
  cases h : st.dbOpen
  · simp only [Bool.not_false, if_true]
  · simp only [Bool.not_true]
    rw [if_neg (by simp)]
    exact (foldStore_dbOpen md5 provider fileName rows.enum _).trans rfl

/-- C8: ingesting an unchanged source file twice produces the same set of
document ids and contents as ingesting it once — in fact the `documents` table
is byte-for-byte identical — and the row count does not grow, because each
document id is the deterministic hash of (file name, row index, content) used
as the `INSERT OR REPLACE` key. -/
theorem c8_ingest_idempotent (md5 : String → String)
    (provider : String → EmbedOutcome) (st : RAGState) (fileName : String)
    (rows : List CSVRow) :
    ((ingestCSV md5 provider (ingestCSV md5 provider st fileName rows) fileName
        rows).documents
      = (ingestCSV md5 provider st fileName rows).documents) ∧
    ((ingestCSV md5 provider (ingestCSV md5 provider st fileName rows) fileName
        rows).documents.length
      = (ingestCSV md5 provider st fileName rows).documents.length) ∧
    ((ingestCSV md5 provider (ingestCSV md5 provider st fileName rows) fileName
        rows).documents.map (fun d => (d.id, d.content))
      = (ingestCSV md5 provider st fileName rows).documents.map
          (fun d => (d.id, d.content))) := by
  have hdocs : (ingestCSV md5 provider (ingestCSV md5 provider st fileName rows)
      fileName rows).documents = (ingestCSV md5 provider st fileName rows).documents := by
    cases h : st.dbOpen
    · rw [ingestCSV_documents_closed md5 provider _ _ _ (by
        rw [ingestCSV_dbOpen]; exact h)]
    · rw [ingestCSV_documents md5 provider _ _ _ (by rw [ingestCSV_dbOpen]; exact h),
        ingestCSV_documents md5 provider st _ _ h, applyUpserts_idem]
  exact ⟨hdocs, by rw [hdocs], by rw [hdocs]⟩

/-! ### Normalization (C2) -/

theorem string_ext_of_data {s t : String} (h : s.data = t.data) : s = t := by
  cases s
  cases t
  exact congrArg String.mk h

/-- C2 counterexample: the decomposed pair e + U+0301 and the precomposed
U+00E9 are byte-different but canonically equal, yet the pipeline feeds the
raw bytes to both the hash and the embedding call, so the two inputs yield
different hash preimages and different embedding inputs — normalization is
applied before neither. -/
theorem c2_counterexample :
    (String.mk ['e', combiningAcute] ≠ String.mk [eAcute]) ∧
    specNormalize (String.mk ['e', combiningAcute]) = specNormalize (String.mk [eAcute]) ∧
    embeddingInput (String.mk ['e', combiningAcute]) ≠ embeddingInput (String.mk [eAcute]) ∧
    hashPreimage "definitions.csv" 0 (String.mk ['e', combiningAcute])
      ≠ hashPreimage "definitions.csv" 0 (String.mk [eAcute]) :=
  ⟨by decide, by decide, by decide, by decide⟩

/-- C2 amended: no normalization is applied before hashing or embedding — the
document id is the hash of the raw `file-rowIndex-content` string and the
embedding input is the raw content, so for a fixed file and row index two
contents produce the same hash preimage (hence the same id) exactly when they
are byte-identical, and the embedding input is the content itself. -/
theorem c2_raw_pipeline (f : String) (i : Nat) (c₁ c₂ : String) :
    (hashPreimage f i c₁ = hashPreimage f i c₂ ↔ c₁ = c₂) ∧
      embeddingInput c₁ = c₁ := by
  refine ⟨⟨fun h => ?_, fun h => by rw [h]⟩, rfl⟩
  have hd := congrArg String.data h
  simp only [hashPreimage, String.data_append, List.append_assoc] at hd
  exact string_ext_of_data
    (List.append_cancel_left (List.append_cancel_left
      (List.append_cancel_left (List.append_cancel_left hd))))

theorem c2_raw_pipeline_witness :
    (hashPreimage "a.csv" 1 "x" = hashPreimage "a.csv" 1 "y" ↔ ("x" : String) = "y") ∧
      embeddingInput "x" = "x" :=
  c2_raw_pipeline "a.csv" 1 "x" "y"

/-! ### Search branch lemmas -/

theorem search_unavailable (st : RAGState) (e : EmbedOutcome) (o : FtsOracle)
    (q : String) (k : Nat) (h : storeAvailable st = false) :
    search st e o q k = ([], st) := by
  unfold search
  rw [h]
  simp only [Bool.not_false, if_true]

theorem search_textMode (st : RAGState) (e : EmbedOutcome) (o : FtsOracle)
    (q : String) (k : Nat) (h : storeAvailable st = true)
    (hf : st.useFullTextSearch = true) :
    search st e o q k
      = (textSearch { st with searchCount := st.searchCount + 1 } o q k,
          { st with searchCount := st.searchCount + 1 }) := by
  unfold search
  rw [h]
  simp only [Bool.not_true]
  rw [if_neg (by simp), if_pos hf]

theorem search_embedFail (st : RAGState) (u : Unit) (o : FtsOracle)
    (q : String) (k : Nat) (h : storeAvailable st = true)
    (hf : st.useFullTextSearch = false) :
    search st (.error u) o q k
      = (textSearch { st with
            searchCount := st.searchCount + 1,
            embeddingFailureCount := st.embeddingFailureCount + 2,
            useFullTextSearch := true } o q k,
          { st with
            searchCount := st.searchCount + 1,
            embeddingFailureCount := st.embeddingFailureCount + 2,
            useFullTextSearch := true }) := by
  unfold search
  rw [h]
  simp only [Bool.not_true]
  rw [if_neg (by simp), if_neg (by simp [hf])]

theorem search_vectorMode (st : RAGState) (qe : List ℝ) (o : FtsOracle)
    (q : String) (k : Nat) (h : storeAvailable st = true)
    (hf : st.useFullTextSearch = false) :
    search st (.ok qe) o q k
      = (vectorResults st qe k,
          if (vectorResults st qe k).length > 0 then
            { st with
              searchCount := st.searchCount + 1,
              matchCount := st.matchCount + (vectorResults st qe k).length }
          else { st with searchCount := st.searchCount + 1 }) := by
  unfold search
  rw [h]
  simp only [Bool.not_true]
  rw [if_neg (by simp), if_neg (by simp [hf])]

theorem textSearch_bothFail (st : RAGState) (o : FtsOracle) (q : String) (k : Nat)
    (e₁ e₂ : FtsErr) (h₁ : o.first = .error e₁) (h₂ : o.retry = .error e₂) :
    textSearch st o q k = [] := by
  unfold textSearch textSearchBody
  rw [h₁, h₂]
  cases hc : isCorruptionError e₁.msg <;> split <;> simp [hc]

theorem textSearch_sourceType (st : RAGState) (o : FtsOracle) (q : String) (k : Nat) :
    ∀ r ∈ textSearch st o q k, r.sourceType = SourceType.text := by
  unfold textSearch
  split
  · intro r hr
    exact absurd hr (List.not_mem_nil r)
  · split
    · intro r hr
      rcases List.mem_map.1 hr with ⟨p, _, rfl⟩
      rfl
    · intro r hr
      exact absurd hr (List.not_mem_nil r)

/-- C3: the public `search` never propagates an error to the caller — it is a
total function on states and oracle outcomes — and both of the claim's
degenerate situations yield the empty list: a call against an unavailable
store (database absent, uninitialized, or empty) returns `[]`, and a call in
which every internal step fails (the query-embedding call throws and both FTS
queries of the lexical fallback throw) also returns `[]`. -/
theorem c3_search_never_throws (st : RAGState) (e : EmbedOutcome) (o : FtsOracle)
    (q : String) (k : Nat) :
    (storeAvailable st = false → (search st e o q k).1 = []) ∧
    (∀ (u : Unit) (e₁ e₂ : FtsErr), e = .error u → o.first = .error e₁ →
      o.retry = .error e₂ → (search st e o q k).1 = []) := by
  constructor
  · intro h
    rw [search_unavailable st e o q k h]
  · intro u e₁ e₂ he h₁ h₂
    cases h : storeAvailable st
    · rw [search_unavailable st e o q k h]
    · cases hf : st.useFullTextSearch
      · subst he
        rw [search_embedFail st u o q k h hf]
        exact textSearch_bothFail _ o q k e₁ e₂ h₁ h₂
      · rw [search_textMode st e o q k h hf]
        exact textSearch_bothFail _ o q k e₁ e₂ h₁ h₂

theorem c3_search_never_throws_witness :
    (storeAvailable stEmpty = false →
      (search stEmpty (.error ()) corruptOracle "anything" 3).1 = []) ∧
    (∀ (u : Unit) (e₁ e₂ : FtsErr), (Except.error () : EmbedOutcome) = .error u →
      corruptOracle.first = .error e₁ → corruptOracle.retry = .error e₂ →
      (search stEmpty (.error ()) corruptOracle "anything" 3).1 = []) :=
  c3_search_never_throws stEmpty (.error ()) corruptOracle "anything" 3

/-! ### Counters (C5) -/

/-- C5 counterexample: a call served by the lexical path returns one result,
yet the total-match counter is left unchanged — `textSearch` and the text
branches of `search` never touch `matchCount`, contradicting the claim that
every call increments it by the number of results returned regardless of path. -/
theorem c5_counterexample :
    ((search stText (.ok [1]) okOracle "caching" 3).1.length = 1) ∧
    ((search stText (.ok [1]) okOracle "caching" 3).2.matchCount = 0) ∧
    stText.matchCount = 0 := by
  rw [search_textMode stText (.ok [1]) okOracle "caching" 3 rfl rfl]
  refine ⟨?_, rfl, rfl⟩
  rfl

/-- C5 amended: a call made while the store is unavailable changes nothing
(neither counter); an available-store call increments the search counter by
exactly one; the match counter is incremented by the result count only when
the vector path serves the query, while calls served by the lexical path
(sticky text mode or embedding failure) leave it unchanged. -/
theorem c5_counters (st : RAGState) (e : EmbedOutcome) (o : FtsOracle)
    (q : String) (k : Nat) :
    (storeAvailable st = false → (search st e o q k).2 = st) ∧
    (storeAvailable st = true → (search st e o q k).2.searchCount = st.searchCount + 1) ∧
    (storeAvailable st = true → st.useFullTextSearch = true →
      (search st e o q k).2.matchCount = st.matchCount) ∧
    (storeAvailable st = true → st.useFullTextSearch = false →
      ∀ u : Unit, e = .error u → (search st e o q k).2.matchCount = st.matchCount) ∧
    (storeAvailable st = true → st.useFullTextSearch = false →
      ∀ qe : List ℝ, e = .ok qe →
        (search st e o q k).2.matchCount
          = st.matchCount + (search st e o q k).1.length) := by
  refine ⟨fun h => ?_, fun h => ?_, fun h hf => ?_, fun h hf u he => ?_,
    fun h hf qe he => ?_⟩
  · rw [search_unavailable st e o q k h]
  · cases hf : st.useFullTextSearch
    · cases e with
      | error u =>
          rw [search_embedFail st u o q k h hf]
      | ok qe =>
          rw [search_vectorMode st qe o q k h hf]
          split <;> rfl
    · rw [search_textMode st e o q k h hf]
  · rw [search_textMode st e o q k h hf]
  · subst he
    rw [search_embedFail st u o q k h hf]
  · subst he
    rw [search_vectorMode st qe o q k h hf]
    by_cases hl : (vectorResults st qe k).length > 0
    · rw [if_pos hl]
    · rw [if_neg hl]
      simp only [Nat.not_lt, Nat.le_zero] at hl
      simp [hl]

theorem c5_counters_witness :
    (storeAvailable stText = false →
      (search stText (.ok [1]) okOracle "caching" 3).2 = stText) ∧
    (storeAvailable stText = true →
      (search stText (.ok [1]) okOracle "caching" 3).2.searchCount
        = stText.searchCount + 1) ∧
    (storeAvailable stText = true → stText.useFullTextSearch = true →
      (search stText (.ok [1]) okOracle "caching" 3).2.matchCount
        = stText.matchCount) ∧
    (storeAvailable stText = true → stText.useFullTextSearch = false →
      ∀ u : Unit, (Except.ok [1] : EmbedOutcome) = .error u →
        (search stText (.ok [1]) okOracle "caching" 3).2.matchCount
          = stText.matchCount) ∧
    (storeAvailable stText = true → stText.useFullTextSearch = false →
      ∀ qe : List ℝ, (Except.ok [1] : EmbedOutcome) = .ok qe →
        (search stText (.ok [1]) okOracle "caching" 3).2.matchCount
          = stText.matchCount
            + (search stText (.ok [1]) okOracle "caching" 3).1.length) :=
  c5_counters stText (.ok [1]) okOracle "caching" 3

/-! ### The sticky circuit breaker (C6) -/

theorem search_flag_mono (st : RAGState) (e : EmbedOutcome) (o : FtsOracle)
    (q : String) (k : Nat) (h : st.useFullTextSearch = true) :
    (search st e o q k).2.useFullTextSearch = true := by
  cases ha : storeAvailable st
  · rw [search_unavailable st e o q k ha]
    exact h
  · rw [search_textMode st e o q k ha h]
    exact h

theorem search_flag_text_results (st : RAGState) (e : EmbedOutcome) (o : FtsOracle)
    (q : String) (k : Nat) (h : st.useFullTextSearch = true) :
    ∀ r ∈ (search st e o q k).1, r.sourceType = SourceType.text := by
  cases ha : storeAvailable st
  · rw [search_unavailable st e o q k ha]
    intro r hr
    exact absurd hr (List.not_mem_nil r)
  · rw [search_textMode st e o q k ha h]
    exact textSearch_sourceType _ o q k

theorem runSearches_flag (cs : List SearchCall) :
    ∀ st : RAGState, st.useFullTextSearch = true →
      ((runSearches st cs).2.useFullTextSearch = true ∧
        ∀ out ∈ (runSearches st cs).1, ∀ r ∈ out, r.sourceType = SourceType.text) := by
  induction cs with
  | nil =>
      intro st h
      exact ⟨h, fun out hout => absurd hout (List.not_mem_nil out)⟩
  | cons c cs ih =>
      intro st h
      have h1 := search_flag_mono st c.embedOut c.fts c.query c.limit h
      have h2 := search_flag_text_results st c.embedOut c.fts c.query c.limit h
      rcases ih (search st c.embedOut c.fts c.query c.limit).2 h1 with ⟨hrec, hout⟩
      refine ⟨hrec, ?_⟩
      intro out hout2
      rcases List.mem_cons.1 hout2 with rfl | hmem
      · exact h2
      · exact hout out hmem

/-- C6: once vector search has failed once (the query-embedding call threw),
the failing call itself trips the sticky mode flag and increments the
embedding-failure counter, its own results already come from the lexical path,
and over every subsequent sequence of `search` calls the flag remains set and
every returned result carries `sourceType = text`; moreover any available-store
call made with the flag set routes directly to `textSearch` without attempting
vector search. -/
theorem c6_sticky_circuit_breaker (st : RAGState) (u : Unit) (o : FtsOracle)
    (q : String) (k : Nat) (cs : List SearchCall)
    (h : storeAvailable st = true) (hf : st.useFullTextSearch = false) :
    ((search st (.error u) o q k).2.useFullTextSearch = true) ∧
    ((search st (.error u) o q k).2.embeddingFailureCount
      = st.embeddingFailureCount + 2) ∧
    (∀ r ∈ (search st (.error u) o q k).1, r.sourceType = SourceType.text) ∧
    ((runSearches (search st (.error u) o q k).2 cs).2.useFullTextSearch = true) ∧
    (∀ out ∈ (runSearches (search st (.error u) o q k).2 cs).1, ∀ r ∈ out,
      r.sourceType = SourceType.text) ∧
    (∀ (st' : RAGState) (e' : EmbedOutcome) (o' : FtsOracle) (q' : String) (k' : Nat),
      st'.useFullTextSearch = true → storeAvailable st' = true →
      (search st' e' o' q' k').1
        = textSearch { st' with searchCount := st'.searchCount + 1 } o' q' k') := by
  have hfail := search_embedFail st u o q k h hf
  have hflag : (search st (.error u) o q k).2.useFullTextSearch = true := by
    rw [hfail]
  refine ⟨hflag, by rw [hfail], ?_, (runSearches_flag cs _ hflag).1,
    (runSearches_flag cs _ hflag).2, ?_⟩
  · rw [hfail]
    exact textSearch_sourceType _ o q k
  · intro st' e' o' q' k' hf' ha'
    rw [search_textMode st' e' o' q' k' ha' hf']

theorem c6_sticky_circuit_breaker_witness :
    ((search (stVec [1]) (.error ()) okOracle "caching" 3).2.useFullTextSearch = true) ∧
    ((search (stVec [1]) (.error ()) okOracle "caching" 3).2.embeddingFailureCount
      = (stVec [1]).embeddingFailureCount + 2) ∧
    (∀ r ∈ (search (stVec [1]) (.error ()) okOracle "caching" 3).1,
      r.sourceType = SourceType.text) ∧
    ((runSearches (search (stVec [1]) (.error ()) okOracle "caching" 3).2
        [⟨.ok [1], okOracle, "caching", 3⟩]).2.useFullTextSearch = true) ∧
    (∀ out ∈ (runSearches (search (stVec [1]) (.error ()) okOracle "caching" 3).2
        [⟨.ok [1], okOracle, "caching", 3⟩]).1, ∀ r ∈ out,
      r.sourceType = SourceType.text) ∧
    (∀ (st' : RAGState) (e' : EmbedOutcome) (o' : FtsOracle) (q' : String) (k' : Nat),
      st'.useFullTextSearch = true → storeAvailable st' = true →
      (search st' e' o' q' k').1
        = textSearch { st' with searchCount := st'.searchCount + 1 } o' q' k') :=
  c6_sticky_circuit_breaker (stVec [1]) () okOracle "caching" 3
    [⟨.ok [1], okOracle, "caching", 3⟩] rfl rfl

/-! ### Cosine similarity: range and concrete values -/

theorem sumSq_nonneg (a : List ℝ) : 0 ≤ sumSq a := by
  refine List.sum_nonneg ?_
  intro y hy
  rcases List.mem_map.1 hy with ⟨x, _, rfl⟩
  exact mul_self_nonneg x

theorem dotList_sq_le : ∀ a b : List ℝ, dotList a b ^ 2 ≤ sumSq a * sumSq b
  | [], b => by simp [dotList, sumSq]
  | a :: as, [] => by simp [dotList, sumSq]
  | a :: as, b :: bs => by
      have ih := dotList_sq_le as bs
      have hP := sumSq_nonneg as
      have hQ := sumSq_nonneg bs
      have hPQ : 0 ≤ sumSq as * sumSq bs - dotList as bs ^ 2 := by linarith
      have hgoal : (a * b + dotList as bs) ^ 2
          ≤ (a * a + sumSq as) * (b * b + sumSq bs) := by
        rcases eq_or_lt_of_le (add_nonneg hP hQ) with hz | hpos
        · have hP0 : sumSq as = 0 := by linarith
          have hQ0 : sumSq bs = 0 := by linarith
          have hd2 : dotList as bs ^ 2 = 0 := by
            have h1 : dotList as bs ^ 2 ≤ 0 := by
              rw [hP0, hQ0] at ih
              simpa using ih
            exact le_antisymm h1 (sq_nonneg _)
          have hd0 : dotList as bs = 0 := (pow_eq_zero_iff two_ne_zero).mp hd2
          rw [hd0, hP0, hQ0]
          nlinarith [sq_nonneg (a * b)]
        · nlinarith [sq_nonneg (b * sumSq as - a * dotList as bs),
            sq_nonneg (a * sumSq bs - b * dotList as bs),
            mul_nonneg (mul_self_nonneg a) hPQ, mul_nonneg (mul_self_nonneg b) hPQ,
            mul_nonneg hP hPQ, mul_nonneg hQ hPQ]
      simpa [dotList, sumSq] using hgoal

theorem abs_dotList_le (a b : List ℝ) :
    |dotList a b| ≤ Real.sqrt (sumSq a) * Real.sqrt (sumSq b) := by
  have h := Real.sqrt_le_sqrt (dotList_sq_le a b)
  rwa [Real.sqrt_sq_eq_abs, Real.sqrt_mul (sumSq_nonneg a)] at h

theorem cosineSim_bounds (a b : List ℝ) (ha : sumSq a ≠ 0) (hb : sumSq b ≠ 0) :
    -1 ≤ cosineSim a b ∧ cosineSim a b ≤ 1 := by
  have hA : 0 < Real.sqrt (sumSq a) :=
    Real.sqrt_pos.2 (lt_of_le_of_ne (sumSq_nonneg a) (Ne.symm ha))
  have hB : 0 < Real.sqrt (sumSq b) :=
    Real.sqrt_pos.2 (lt_of_le_of_ne (sumSq_nonneg b) (Ne.symm hb))
  have hN : 0 < Real.sqrt (sumSq a) * Real.sqrt (sumSq b) := mul_pos hA hB
  have habs := abs_dotList_le a b
  have h1 : dotList a b ≤ Real.sqrt (sumSq a) * Real.sqrt (sumSq b) :=
    le_trans (le_abs_self _) habs
  have h2 : -(Real.sqrt (sumSq a) * Real.sqrt (sumSq b)) ≤ dotList a b :=
    le_trans (neg_le_neg habs) (neg_abs_le _)
  constructor
  · rw [cosineSim, le_div_iff hN]
    linarith
  · rw [cosineSim, div_le_one hN]
    exact h1

theorem sqrt_twentyfive : Real.sqrt 25 = 5 := by
  rw [show (25 : ℝ) = 5 ^ 2 by norm_num, Real.sqrt_sq (by norm_num : (0:ℝ) ≤ 5)]

theorem cosineSim_three_fifths : cosineSim [1, 0] [3, 4] = 3 / 5 := by
  have h1 : sumSq [(1:ℝ), 0] = 1 := by simp [sumSq]
  have h2 : sumSq [(3:ℝ), 4] = 25 := by norm_num [sumSq]
  have h3 : dotList [1, 0] [3, 4] = 3 := by norm_num [dotList]
  rw [cosineSim, h1, h2, h3, Real.sqrt_one, sqrt_twentyfive]
  norm_num

theorem cosineSim_opposite : cosineSim [1] [-1] = -1 := by
  have h1 : sumSq [(1:ℝ)] = 1 := by simp [sumSq]
  have h2 : sumSq [(-1:ℝ)] = 1 := by norm_num [sumSq]
  have h3 : dotList [1] [-1] = -1 := by norm_num [dotList]
  rw [cosineSim, h1, h2, h3, Real.sqrt_one]
  norm_num

theorem cosineSim_same_unit : cosineSim [1] [1] = 1 := by
  have h1 : sumSq [(1:ℝ)] = 1 := by simp [sumSq]
  have h3 : dotList [1] [1] = 1 := by norm_num [dotList]
  rw [cosineSim, h1, h3, Real.sqrt_one]
  norm_num

/-! ### Stability of the ranking sort -/

theorem lookup_mem {β : Type} :
    ∀ (l : List (String × β)) (a : String) (b : β),
      l.lookup a = some b → (a, b) ∈ l
  | [], a, b, h => by simp [List.lookup] at h
  | (k, v) :: l, a, b, h => by
      cases hk : a == k with
      | true =>
          have hka : a = k := by simpa using hk
          simp only [List.lookup, hk] at h
          subst hka
          simp at h
          subst h
          exact List.mem_cons_self _ _
      | false =>
          simp only [List.lookup, hk] at h
          exact List.mem_cons_of_mem _ (lookup_mem l a b h)

theorem filter_orderedInsert_sim (x : DocRow × ℝ) (v : ℝ) :
    ∀ l : List (DocRow × ℝ),
      (List.orderedInsert simGE x l).filter (fun p => decide (p.2 = v))
        = if x.2 = v then x :: l.filter (fun p => decide (p.2 = v))
          else l.filter (fun p => decide (p.2 = v))
  | [] => by
      by_cases hx : x.2 = v <;> simp [List.orderedInsert, hx]
  | y :: ys => by
      by_cases hr : simGE x y
      · by_cases hx : x.2 = v <;>
          simp [List.orderedInsert, if_pos hr, List.filter_cons, hx]
      · have hlt : x.2 < y.2 := lt_of_not_le hr
        have ih := filter_orderedInsert_sim x v ys
        by_cases hx : x.2 = v
        · have hy : ¬ (y.2 = v) := fun hyv => absurd (hx ▸ hyv) (ne_of_gt hlt)
          simp only [List.orderedInsert, if_neg hr, List.filter_cons]
          rw [ih]
          simp [hx, hy]
        · simp only [List.orderedInsert, if_neg hr, List.filter_cons]
          rw [ih]
          simp [hx]

/-- Stability of the descending similarity sort: for every similarity value,
the equal-similarity documents appear in the sorted output in exactly their
original (insertion) order, because JavaScript's stable `Array.prototype.sort`
never reorders elements the comparator deems equal. -/
theorem filter_insertionSort_sim (v : ℝ) :
    ∀ l : List (DocRow × ℝ),
      (List.insertionSort simGE l).filter (fun p => decide (p.2 = v))
        = l.filter (fun p => decide (p.2 = v))
  | [] => rfl
  | x :: xs => by
      rw [List.insertionSort, filter_orderedInsert_sim x v, List.filter_cons]
      by_cases hx : x.2 = v
      · rw [if_pos hx, filter_insertionSort_sim v xs]
        simp [hx]
      · rw [if_neg hx, filter_insertionSort_sim v xs]
        simp [hx]

/-! ### Ranking validity (C4) -/

/-- C4 counterexample: with a stored embedding opposite to the query embedding
the vector path returns that document with cosine similarity -1, which lies
outside the claimed range [0, 1] — the code neither clamps nor boosts the raw
cosine value. -/
theorem c4_counterexample :
    ((search (stVec [-1]) (.ok [1]) corruptOracle "caching" 3).1
      = [{ content := "term: caching", similarity := -1,
           sourceType := SourceType.vector }]) ∧
    ((-1 : ℝ) < 0) := by
  constructor
  · rw [search_vectorMode (stVec [-1]) [1] corruptOracle "caching" 3 rfl rfl]
    have hv : vectorResults (stVec [-1]) [1] 3
        = [{ content := "term: caching", similarity := cosineSim [1] [-1],
             sourceType := SourceType.vector }] := rfl
    show vectorResults (stVec [-1]) [1] 3 = _
    rw [hv, cosineSim_opposite]
  · norm_num

/-- C4 amended: for every query embedding and limit `k`, the vector path
returns at most `k` results, sorted by non-increasing similarity, with ties
between equal similarities broken by original insertion order (the sort is
stable), and every returned similarity lies in [-1, 1] — not [0, 1] — provided
the query embedding and all stored embeddings are nonzero. -/
theorem c4_ranking (st : RAGState) (qe : List ℝ) (o : FtsOracle) (q : String)
    (k : Nat) (h : storeAvailable st = true) (hf : st.useFullTextSearch = false)
    (hq : sumSq qe ≠ 0) (hemb : ∀ p ∈ st.embeddings, sumSq p.2 ≠ 0) :
    ((search st (.ok qe) o q k).1.length ≤ k) ∧
    ((search st (.ok qe) o q k).1.Pairwise
      (fun r₁ r₂ => r₂.similarity ≤ r₁.similarity)) ∧
    (∀ r ∈ (search st (.ok qe) o q k).1, -1 ≤ r.similarity ∧ r.similarity ≤ 1) ∧
    (∀ v : ℝ,
      (List.insertionSort simGE (scoredDocuments st qe)).filter
          (fun p => decide (p.2 = v))
        = (scoredDocuments st qe).filter (fun p => decide (p.2 = v))) := by
  rw [search_vectorMode st qe o q k h hf]
  refine ⟨?_, ?_, ?_, fun v => filter_insertionSort_sim v _⟩
  · show (vectorResults st qe k).length ≤ k
    simp only [vectorResults, List.length_map]
    simp [List.length_take]
  · show (vectorResults st qe k).Pairwise _
    have hs : ((List.insertionSort simGE (scoredDocuments st qe)).take k).Pairwise
        simGE :=
      (List.sorted_insertionSort simGE (scoredDocuments st qe)).sublist
        (List.take_sublist k _)
    exact (List.pairwise_map).2 (hs.imp (fun hab => hab))
  · show ∀ r ∈ vectorResults st qe k, _
    intro r hr
    simp only [vectorResults, List.mem_map] at hr
    rcases hr with ⟨p, hp, rfl⟩
    have hp3 : p ∈ scoredDocuments st qe :=
      (List.perm_insertionSort simGE _).mem_iff.1 (List.mem_of_mem_take hp)
    simp only [scoredDocuments, List.mem_map] at hp3
    rcases hp3 with ⟨de, hde, rfl⟩
    have hde2 : (de.1.id, de.2) ∈ st.embeddings := by
      simp only [vectorCandidates, List.mem_filterMap] at hde
      rcases hde with ⟨d, _, hopt⟩
      rcases Option.map_eq_some'.1 hopt with ⟨e, hlk, hpair⟩
      cases hpair
      exact lookup_mem _ _ _ hlk
    exact cosineSim_bounds qe de.2 hq (hemb _ hde2)

theorem c4_ranking_witness :
    (storeAvailable (stVec [1]) = true) ∧
    ((stVec [1]).useFullTextSearch = false) ∧
    (sumSq [(1:ℝ)] ≠ 0) ∧
    (∀ p ∈ (stVec [1]).embeddings, sumSq p.2 ≠ 0) ∧
    (((search (stVec [1]) (.ok [1]) okOracle "caching" 2).1.length ≤ 2) ∧
      ((search (stVec [1]) (.ok [1]) okOracle "caching" 2).1.Pairwise
        (fun r₁ r₂ => r₂.similarity ≤ r₁.similarity)) ∧
      (∀ r ∈ (search (stVec [1]) (.ok [1]) okOracle "caching" 2).1,
        -1 ≤ r.similarity ∧ r.similarity ≤ 1) ∧
      (∀ v : ℝ,
        (List.insertionSort simGE (scoredDocuments (stVec [1]) [1])).filter
            (fun p => decide (p.2 = v))
          = (scoredDocuments (stVec [1]) [1]).filter (fun p => decide (p.2 = v)))) := by
  have hq : sumSq [(1:ℝ)] ≠ 0 := by norm_num [sumSq]
  have hemb : ∀ p ∈ (stVec [1]).embeddings, sumSq p.2 ≠ 0 := by
    intro p hp
    simp only [stVec, List.mem_singleton] at hp
    subst hp
    norm_num [sumSq]
  exact ⟨rfl, rfl, hq, hemb,
    c4_ranking (stVec [1]) [1] okOracle "caching" 2 rfl rfl hq hemb⟩

/-! ### No boosting (C1) -/

/-- C1 counterexample: the sample document's metadata source is exactly the
designated authoritative file, yet `search` returns it with its raw cosine
similarity 3/5 — not the boosted value min 1 (3/5 times 1.2) = 18/25 demanded
by the claim, which differs from 3/5.  No boosting code exists in
`RAGService.search`. -/
theorem c1_counterexample :
    ((search (stVec [3, 4]) (.ok [1, 0]) corruptOracle "caching" 3).1
      = [{ content := "term: caching", similarity := 3 / 5,
           sourceType := SourceType.vector }]) ∧
    sampleDoc.metadata.source = "definitions.csv" ∧
    specBoostedSimilarity "definitions.csv" sampleDoc.metadata (3 / 5) ≠ 3 / 5 := by
  refine ⟨?_, rfl, ?_⟩
  · rw [search_vectorMode (stVec [3, 4]) [1, 0] corruptOracle "caching" 3 rfl rfl]
    have hv : vectorResults (stVec [3, 4]) [1, 0] 3
        = [{ content := "term: caching", similarity := cosineSim [1, 0] [3, 4],
             sourceType := SourceType.vector }] := rfl
    show vectorResults (stVec [3, 4]) [1, 0] 3 = _
    rw [hv, cosineSim_three_fifths]
  · unfold specBoostedSimilarity
    rw [if_pos (show sampleDoc.metadata.source = "definitions.csv" from rfl),
      min_eq_right (by norm_num : (3:ℝ)/5 * (12/10) ≤ 1)]
    norm_num

/-- C1 amended: no source-based boosting is applied at all — every result the
vector path returns carries exactly the raw cosine similarity between the
query embedding and that document's stored embedding, for documents from the
authoritative glossary file and from every other source alike. -/
theorem c1_no_boosting (st : RAGState) (qe : List ℝ) (o : FtsOracle) (q : String)
    (k : Nat) (h : storeAvailable st = true) (hf : st.useFullTextSearch = false) :
    ∀ r ∈ (search st (.ok qe) o q k).1, ∃ de ∈ vectorCandidates st,
      r.content = de.1.content ∧ r.similarity = cosineSim qe de.2 ∧
        r.sourceType = SourceType.vector := by
  rw [search_vectorMode st qe o q k h hf]
  intro r hr
  simp only [vectorResults, List.mem_map] at hr
  rcases hr with ⟨p, hp, rfl⟩
  have hp3 : p ∈ scoredDocuments st qe :=
    (List.perm_insertionSort simGE _).mem_iff.1 (List.mem_of_mem_take hp)
  simp only [scoredDocuments, List.mem_map] at hp3
  rcases hp3 with ⟨de, hde, rfl⟩
  exact ⟨de, hde, rfl, rfl, rfl⟩

theorem c1_no_boosting_witness :
    ∃ de ∈ vectorCandidates (stVec [1]),
      ({ content := "term: caching", similarity := cosineSim [1] [1],
          sourceType := SourceType.vector } : RAGSearchResult).content
        = de.1.content ∧
      ({ content := "term: caching", similarity := cosineSim [1] [1],
          sourceType := SourceType.vector } : RAGSearchResult).similarity
        = cosineSim [1] de.2 ∧
      ({ content := "term: caching", similarity := cosineSim [1] [1],
          sourceType := SourceType.vector } : RAGSearchResult).sourceType
        = SourceType.vector :=
  c1_no_boosting (stVec [1]) [1] okOracle "caching" 3 rfl rfl
    { content := "term: caching", similarity := cosineSim [1] [1],
      sourceType := SourceType.vector }
    (by rw [search_vectorMode (stVec [1]) [1] okOracle "caching" 3 rfl rfl]
        exact List.Mem.head _)

/-! ### Corruption recovery and the unreachable LIKE fallback (C7) -/

/-- C7: evaluation of `textSearch` at the claim's scenarios.  A corrupted
first FTS query whose post-rebuild retry succeeds serves the retried rows
(the rebuild-and-retry-once part of the claim is implemented); but when the
retry fails too, `textSearch` returns the empty list — the rethrown error
lands in the outer catch, bypassing the `if (!results)` LIKE block — even
though the claimed raw substring scan would have found the document. -/
theorem c7_like_fallback_unreachable :
    (isCorruptionError "SQLITE_CORRUPT_VTAB: database disk image is malformed"
      = true) ∧
    ((textSearch stText retryOracle "caching" 3).map
        (fun r => (r.content, r.sourceType))
      = [("term: caching", SourceType.text)]) ∧
    (textSearch stText corruptOracle "caching" 3 = []) ∧
    (likeFallback stText.documents "caching" 3 = [("doc1", "term: caching")]) := by
  refine ⟨by decide, rfl, ?_, by decide⟩
  exact textSearch_bothFail stText corruptOracle "caching" 3 _ _ rfl rfl

/-! ### Refresh: invariants of the ingestion loops (C9) -/

theorem storeDocument_isInitialized (provider : String → EmbedOutcome)
    (st : RAGState) (d : DocRow) :
    (storeDocument provider st d).isInitialized = st.isInitialized := by
  unfold storeDocument
  split
  · rfl
  · split
    · rfl
    · split <;> rfl

theorem storeDocument_ingestCalls (provider : String → EmbedOutcome)
    (st : RAGState) (d : DocRow) :
    (storeDocument provider st d).ingestCalls = st.ingestCalls := by
  unfold storeDocument
  split
  · rfl
  · split
    · rfl
    · split <;> rfl

theorem foldStore_isInitialized (md5 : String → String)
    (provider : String → EmbedOutcome) (fileName : String) :
    ∀ (l : List (Nat × CSVRow)) (st : RAGState),
      ((l.foldl (fun s p => storeDocument provider s (rowDocument md5 fileName p.1 p.2))
          st).isInitialized = st.isInitialized)
  | [], _ => rfl
  | p :: l, st => by
      rw [List.foldl_cons, foldStore_isInitialized md5 provider fileName l,
        storeDocument_isInitialized]

theorem foldStore_ingestCalls (md5 : String → String)
    (provider : String → EmbedOutcome) (fileName : String) :
    ∀ (l : List (Nat × CSVRow)) (st : RAGState),
      ((l.foldl (fun s p => storeDocument provider s (rowDocument md5 fileName p.1 p.2))
          st).ingestCalls = st.ingestCalls)
  | [], _ => rfl
  | p :: l, st => by
      rw [List.foldl_cons, foldStore_ingestCalls md5 provider fileName l,
        storeDocument_ingestCalls]

theorem ingestCSV_isInitialized (md5 : String → String)
    (provider : String → EmbedOutcome) (st : RAGState) (fileName : String)
    (rows : List CSVRow) :
    (ingestCSV md5 provider st fileName rows).isInitialized = st.isInitialized := by
  unfold ingestCSV
  cases h : st.dbOpen
  · simp only [Bool.not_false, if_true]
  · simp only [Bool.not_true]
    rw [if_neg (by simp)]
    exact (foldStore_isInitialized md5 provider fileName rows.enum _).trans rfl

theorem ingestCSV_ingestCalls (md5 : String → String)
    (provider : String → EmbedOutcome) (st : RAGState) (fileName : String)
    (rows : List CSVRow) :
    (ingestCSV md5 provider st fileName rows).ingestCalls
      = st.ingestCalls ++ [fileName] := by
  unfold ingestCSV
  cases h : st.dbOpen
  · simp only [Bool.not_false, if_true]
  · simp only [Bool.not_true]
    rw [if_neg (by simp)]
    exact (foldStore_ingestCalls md5 provider fileName rows.enum _).trans rfl

theorem foldNew_nochange (md5 : String → String) (provider : String → EmbedOutcome)
    (cur : List String) (now : Nat) :
    ∀ (files : List DirFile) (st : RAGState),
      (∀ f ∈ files, cur.contains f.name = true) →
      files.foldl (refreshNewFiles md5 provider cur now) (st, false) = (st, false)
  | [], _, _ => rfl
  | f :: fs, st, h => by
      rw [List.foldl_cons]
      have hstep : refreshNewFiles md5 provider cur now (st, false) f = (st, false) := by
        unfold refreshNewFiles
        rw [if_pos (h f (List.mem_cons_self f fs))]
      rw [hstep]
      exact foldNew_nochange md5 provider cur now fs st
        (fun g hg => h g (List.mem_cons_of_mem f hg))

theorem updStep_ingest_eq (md5 : String → String) (provider : String → EmbedOutcome)
    (dir : List DirFile) (now : Nat) (acc : RAGState × List (String × Nat) × Bool)
    (entry : String × Nat) (f : DirFile)
    (hfind : dir.find? (fun g => g.name == entry.1) = some f)
    (hmt : f.mtime > entry.2) (hinit : acc.1.isInitialized = true)
    (hdb : acc.1.dbOpen = true) :
    refreshUpdatedStep md5 provider dir now acc entry
      = ({ ingestCSV md5 provider acc.1 entry.1 f.rows with lastIngestTime := some now },
          acc.2.1 ++ [(entry.1, now)], true) := by
  unfold refreshUpdatedStep
  rw [hfind]
  dsimp only
  rw [if_pos hmt, if_pos (by simp [hinit, hdb])]

theorem updStep_invariants (md5 : String → String) (provider : String → EmbedOutcome)
    (dir : List DirFile) (now : Nat) (acc : RAGState × List (String × Nat) × Bool)
    (entry : String × Nat) :
    ((refreshUpdatedStep md5 provider dir now acc entry).1.isInitialized
        = acc.1.isInitialized) ∧
    ((refreshUpdatedStep md5 provider dir now acc entry).1.dbOpen = acc.1.dbOpen) ∧
    (∀ x ∈ acc.1.ingestCalls,
      x ∈ (refreshUpdatedStep md5 provider dir now acc entry).1.ingestCalls) := by
  unfold refreshUpdatedStep
  split
  · exact ⟨rfl, rfl, fun x hx => hx⟩
  · split
    · split
      · refine ⟨?_, ?_, ?_⟩
        · exact ingestCSV_isInitialized md5 provider acc.1 entry.1 _
        · exact ingestCSV_dbOpen md5 provider acc.1 entry.1 _
        · intro x hx
          show x ∈ (ingestCSV md5 provider acc.1 entry.1 _).ingestCalls
          rw [ingestCSV_ingestCalls]
          exact List.mem_append_left _ hx
      · exact ⟨rfl, rfl, fun x hx => hx⟩
    · exact ⟨rfl, rfl, fun x hx => hx⟩

theorem foldUpd_calls_mono (md5 : String → String) (provider : String → EmbedOutcome)
    (dir : List DirFile) (now : Nat) :
    ∀ (entries : List (String × Nat)) (acc : RAGState × List (String × Nat) × Bool)
      (x : String), x ∈ acc.1.ingestCalls →
      x ∈ (entries.foldl (refreshUpdatedStep md5 provider dir now) acc).1.ingestCalls
  | [], _, _, hx => hx
  | ent :: entries, acc, x, hx => by
      rw [List.foldl_cons]
      exact foldUpd_calls_mono md5 provider dir now entries _ x
        ((updStep_invariants md5 provider dir now acc ent).2.2 x hx)

theorem foldUpd_ingests (md5 : String → String) (provider : String → EmbedOutcome)
    (dir : List DirFile) (now : Nat) :
    ∀ (entries : List (String × Nat)) (acc : RAGState × List (String × Nat) × Bool)
      (e : String × Nat) (f : DirFile),
      e ∈ entries → dir.find? (fun g => g.name == e.1) = some f → f.mtime > e.2 →
      acc.1.isInitialized = true → acc.1.dbOpen = true →
      e.1 ∈ (entries.foldl (refreshUpdatedStep md5 provider dir now) acc).1.ingestCalls
  | [], _, _, _, he, _, _, _, _ => absurd he (List.not_mem_nil _)
  | ent :: entries, acc, e, f, he, hfind, hmt, hinit, hdb => by
      rw [List.foldl_cons]
      rcases List.mem_cons.1 he with rfl | hmem
      · apply foldUpd_calls_mono
        rw [updStep_ingest_eq md5 provider dir now acc e f hfind hmt hinit hdb]
        show e.1 ∈ (ingestCSV md5 provider acc.1 e.1 f.rows).ingestCalls
        rw [ingestCSV_ingestCalls]
        exact List.mem_append_right _ (List.mem_singleton.2 rfl)
      · exact foldUpd_ingests md5 provider dir now entries _ e f hmem hfind hmt
          (((updStep_invariants md5 provider dir now acc ent).1).trans hinit)
          (((updStep_invariants md5 provider dir now acc ent).2.1).trans hdb)

theorem refreshFinish_ingestCalls (files : List DirFile)
    (r2 : RAGState × Bool) :
    (refreshFinish files r2).ingestCalls = r2.1.ingestCalls := by
  unfold refreshFinish
  split <;> rfl

theorem refreshPhase2_false_ingestCalls (md5 : String → String)
    (provider : String → EmbedOutcome) (dir : List DirFile) (now : Nat)
    (st : RAGState) :
    (refreshPhase2 md5 provider dir now (st, false)).1.ingestCalls
      = (st.ingestedFiles.foldl (refreshUpdatedStep md5 provider dir now)
          (st, [], false)).1.ingestCalls := rfl

/-- C9 counterexample: a refresh scan that discovers the new file `b.csv` and
also finds the known file `a.csv` updated (mtime 9 exceeds its ledger time 5)
ingests only `b.csv` — the updated-timestamps loop is guarded by
`if (!hasChanges)` and is skipped whenever a new file was found, so `a.csv` is
not re-ingested and keeps its old ledger timestamp. -/
theorem c9_counterexample :
    ((refresh (fun s => s) (fun _ => .error ()) stRefresh dirNewAndUpdated
        20).ingestCalls = ["b.csv"]) ∧
    ("a.csv" ∉ (refresh (fun s => s) (fun _ => .error ()) stRefresh dirNewAndUpdated
        20).ingestCalls) ∧
    (9 > 5) ∧
    ((refresh (fun s => s) (fun _ => .error ()) stRefresh dirNewAndUpdated
        20).ingestedFiles = [("a.csv", 5), ("b.csv", 20)]) := by
  refine ⟨rfl, by decide, by decide, rfl⟩

/-- C9 amended: during a steady-state refresh in which no new file was
discovered, every ledger entry whose file's modification time exceeds the
ledger timestamp is re-ingested (given an initialized service with an open
database); when a new file is discovered in the same scan, the updated-file
pass is skipped entirely. -/
theorem c9_refresh_updated (md5 : String → String)
    (provider : String → EmbedOutcome) (st : RAGState) (dir : List DirFile)
    (now : Nat) (e : String × Nat) (f : DirFile)
    (hinit : st.isInitialized = true) (hdb : st.dbOpen = true)
    (hnonew : ∀ g ∈ csvFiles dir, (st.ingestedFiles.map Prod.fst).contains g.name = true)
    (he : e ∈ st.ingestedFiles)
    (hfind : dir.find? (fun g => g.name == e.1) = some f)
    (hmt : f.mtime > e.2) (hne : (csvFiles dir).isEmpty = false) :
    e.1 ∈ (refresh md5 provider st dir now).ingestCalls := by
  have h1 : refreshPhase1 md5 provider st dir now = (st, false) :=
    foldNew_nochange md5 provider _ now (csvFiles dir) st hnonew
  unfold refresh
  rw [if_neg (by rw [hne]; exact Bool.false_ne_true)]
  rw [refreshFinish_ingestCalls, h1, refreshPhase2_false_ingestCalls]
  exact foldUpd_ingests md5 provider dir now st.ingestedFiles (st, [], false) e f
    he hfind hmt hinit hdb

theorem c9_refresh_updated_witness :
    (stRefresh.isInitialized = true) ∧ (stRefresh.dbOpen = true) ∧
    (∀ g ∈ csvFiles dirUpdatedOnly,
      (stRefresh.ingestedFiles.map Prod.fst).contains g.name = true) ∧
    (("a.csv", 5) ∈ stRefresh.ingestedFiles) ∧
    (dirUpdatedOnly.find? (fun g => g.name == "a.csv")
      = some { name := "a.csv", mtime := 9, rows := [[("term", "y")]] }) ∧
    (9 > 5) ∧ ((csvFiles dirUpdatedOnly).isEmpty = false) ∧
    ("a.csv" ∈ (refresh (fun s => s) (fun _ => .error ()) stRefresh dirUpdatedOnly
        20).ingestCalls) := by
  have hnonew : ∀ g ∈ csvFiles dirUpdatedOnly,
      (stRefresh.ingestedFiles.map Prod.fst).contains g.name = true := by decide
  have he : (("a.csv", 5) : String × Nat) ∈ stRefresh.ingestedFiles := by decide
  exact ⟨rfl, rfl, hnonew, he, rfl, by decide, rfl,
    c9_refresh_updated (fun s => s) (fun _ => .error ()) stRefresh dirUpdatedOnly
      20 ("a.csv", 5) { name := "a.csv", mtime := 9, rows := [[("term", "y")]] }
      rfl rfl hnonew he rfl (by decide) rfl⟩

/-! ### The status operation is not read-only (C10) -/

/-- C10: `getIngestedFilesInfo` launches `refreshIngestedFiles()` without
awaiting it and snapshots the ledger immediately afterwards.  On a scan that
discovers a new file while the service is initialized, the refresh suspends at
its first `await this.ingestCSV(...)` before mutating anything, so the
returned snapshot still shows the old ledger, while the completed refresh has
ingested the new file's documents and extended the ledger — the status call
mutates the store as a side effect and its snapshot predates those effects. -/
theorem c10_status_mutates_and_snapshot_predates :
    ((getIngestedFilesInfo (fun s => s) (fun _ => .error ()) stRefresh
        dirNewAndUpdated 20).1.files = [("a.csv", 5)]) ∧
    ((getIngestedFilesInfo (fun s => s) (fun _ => .error ()) stRefresh
        dirNewAndUpdated 20).2.ingestedFiles = [("a.csv", 5), ("b.csv", 20)]) ∧
    ((getIngestedFilesInfo (fun s => s) (fun _ => .error ()) stRefresh
        dirNewAndUpdated 20).2.documents ≠ stRefresh.documents) ∧
    ((getIngestedFilesInfo (fun s => s) (fun _ => .error ()) stRefresh
        dirNewAndUpdated 20).1.files
      ≠ (getIngestedFilesInfo (fun s => s) (fun _ => .error ()) stRefresh
          dirNewAndUpdated 20).2.ingestedFiles) := by
  refine ⟨rfl, rfl, by decide, by decide⟩

end RAG
